import Mathlib

/-!
Shallow embedding of the core of the `anki-mcp-server` repository:
the resilient Anki client (`src/utils.ts`: retry loop, backoff, error
normalization, error wrapping, result sanitisation) and the note-type
schema cache (`src/mcpResource.ts`: per-name map, "all schemas" snapshot,
shared freshness stamp).  JavaScript thrown values are modelled by
`JsValue`, dynamic JSON results by `JsDyn`, time by natural-number
milliseconds, and the remote AnkiConnect service by an environment record
`AnkiEnv`.  A remote-call log (`RemoteCall`) instruments which network
operations a cache operation issues.
-/

namespace AnkiMcp

/-- Substring test on character lists: does the list start with `sub`? -/
def leadMatch : List Char → List Char → Bool
  | [], _ => true
  | _ :: _, [] => false
  | a :: as, b :: bs => a = b && leadMatch as bs

/-- Does `sub` occur as a contiguous run anywhere in the list? -/
def hasSub (sub : List Char) : List Char → Bool
  | [] => leadMatch sub []
  | c :: cs => leadMatch sub (c :: cs) || hasSub sub cs

/-- Model of JavaScript `String.prototype.includes`. -/
def strContains (s sub : String) : Bool :=
  hasSub sub.data s.data

/-- A JavaScript thrown value: either an `Error` instance (with its `name`
and `message`), or any other value, carrying its `String(...)` form. -/
inductive JsValue where
  | error (name : String) (message : String)
  | nonError (str : String)
deriving DecidableEq

/-- The outcome of `AnkiClient.normalizeError`: one of the three custom
error classes, or a plain `Error` (pass-through / generic wrap). -/
inductive NormalizedError where
  | connectionError (message : String)
  | timeoutError (message : String)
  | apiError (message : String)
  | plainError (name : String) (message : String)
deriving DecidableEq

/-- `AnkiClient.normalizeError` (src/utils.ts lines 112-142): classify a
raw thrown value by substring tests on its message, in priority order. -/
def normalizeError (e : JsValue) : NormalizedError :=
  match e with
  | JsValue.error name msg =>
    if strContains msg "ECONNREFUSED" then
      NormalizedError.connectionError
        "Anki is not running. Please start Anki and ensure AnkiConnect plugin is enabled."
    else if strContains msg "timeout" || strContains msg "ETIMEDOUT" then
      NormalizedError.timeoutError
        "Connection to Anki timed out. Please check if Anki is responsive."
    else if strContains msg "collection unavailable" then
      NormalizedError.apiError
        "Anki collection is unavailable. Please close any open dialogs in Anki."
    else
      NormalizedError.plainError name msg
  | JsValue.nonError s => NormalizedError.plainError "Error" s

/-- The exponential backoff of `executeWithRetry` (src/utils.ts lines
96-99): `min(1000 * 2^attempt, retryTimeout)` milliseconds. -/
def backoffDelay (attempt retryTimeout : Nat) : Nat :=
  min (1000 * 2 ^ attempt) retryTimeout

/-- Observable trace of one `executeWithRetry` run: the final outcome, the
backoff delays awaited (in order), and how many attempts were issued. -/
structure RetryTrace (α : Type) where
  result : Except NormalizedError α
  delays : List Nat
  attemptsMade : Nat

/-- The retry loop of `AnkiClient.executeWithRetry` (src/utils.ts lines
85-106), recursing on the number of remaining permitted attempts.  The
operation is indexed by the attempt number.  On the last permitted attempt
no delay is awaited; after the loop the last normalized error (or the
defensive generic connection error) is raised. -/
def retryLoop {α : Type} (op : Nat → Except JsValue α) (retryTimeout : Nat) :
    Nat → Nat → Option NormalizedError → RetryTrace α
  | _, 0, lastError =>
      ⟨Except.error
        (lastError.getD (NormalizedError.connectionError "Unknown error occurred")), [], 0⟩
  | attempt, remaining + 1, _ =>
      match op attempt with
      | Except.ok v => ⟨Except.ok v, [], 1⟩
      | Except.error e =>
          let rest := retryLoop op retryTimeout (attempt + 1) remaining (some (normalizeError e))
          ⟨rest.result,
            (if remaining = 0 then [] else [backoffDelay attempt retryTimeout]) ++ rest.delays,
            rest.attemptsMade + 1⟩

/-- `AnkiClient.executeWithRetry` (src/utils.ts lines 81-107): attempts
`0..maxRetries`.  `maxRetries` is an integer (the TS default is `1`), so a
negative value permits zero attempts. -/
def executeWithRetry {α : Type} (op : Nat → Except JsValue α) (maxRetries : Int)
    (retryTimeout : Nat) : RetryTrace α :=
  retryLoop op retryTimeout 0 (maxRetries + 1).toNat none

/-- MCP error codes used by the bridge layer. -/
inductive McpErrorCode where
  | invalidParams
  | internalError
deriving DecidableEq

/-- An MCP protocol error (code plus message). -/
structure McpError where
  code : McpErrorCode
  message : String
deriving DecidableEq

/-- `AnkiClient.wrapError` (src/utils.ts lines 147-164): the three custom
error kinds keep their message; any other `Error` is wrapped generically. -/
def wrapError : NormalizedError → McpError
  | NormalizedError.connectionError m => ⟨McpErrorCode.internalError, m⟩
  | NormalizedError.timeoutError m => ⟨McpErrorCode.internalError, m⟩
  | NormalizedError.apiError m => ⟨McpErrorCode.internalError, m⟩
  | NormalizedError.plainError _ m => ⟨McpErrorCode.internalError, "Anki error: " ++ m⟩

/-- `AnkiClient.getDeckNames` (src/utils.ts lines 187-195): run the
operation through the retry wrapper and wrap any surfaced error.  The
delays trace is kept for timing claims. -/
def getDeckNames (op : Nat → Except JsValue (List String)) (retryTimeout : Nat) :
    Except McpError (List String) × List Nat :=
  let t := executeWithRetry op 1 retryTimeout
  match t.result with
  | Except.ok v => (Except.ok v, t.delays)
  | Except.error e => (Except.error (wrapError e), t.delays)

/-- A card template `{Front, Back}` as returned by `modelTemplates`. -/
structure CardTemplate where
  Front : String
  Back : String
deriving DecidableEq

/-- `ModelSchema` (src/mcpResource.ts lines 283-288): one note type's
structure.  The `Record<string, ...>` of templates is modelled by an
association list. -/
structure ModelSchema where
  modelName : String
  fields : List String
  templates : List (String × CardTemplate)
  css : String
deriving DecidableEq

/-- Lookup in the association-list model of a JS `Map`. -/
def mapLookup (m : List (String × ModelSchema)) (k : String) : Option ModelSchema :=
  match m with
  | [] => none
  | (k', v) :: rest => if k' = k then some v else mapLookup rest k

/-- `Map.set`: overwrite the binding for `k` if present, else append it. -/
def mapSet (m : List (String × ModelSchema)) (k : String) (v : ModelSchema) :
    List (String × ModelSchema) :=
  match m with
  | [] => [(k, v)]
  | (k', v') :: rest => if k' = k then (k, v) :: rest else (k', v') :: mapSet rest k v

/-- The mutable state of `McpResourceHandler` (src/mcpResource.ts lines
12-15, constructor lines 19-22): the per-name schema map, the optional
"all schemas" snapshot, and the single shared freshness stamp. -/
structure CacheState where
  modelSchemaCache : List (String × ModelSchema)
  allModelSchemasCache : Option (List ModelSchema)
  lastCacheUpdate : Nat
deriving DecidableEq

/-- `cacheExpiry` (src/mcpResource.ts line 21): 5 minutes in ms. -/
def cacheExpiry : Nat := 5 * 60 * 1000

/-- One outbound AnkiClient call issued by the schema cache. -/
inductive RemoteCall where
  | modelNames
  | modelFieldNames (modelName : String)
  | modelTemplates (modelName : String)
  | modelStyling (modelName : String)
deriving DecidableEq

/-- The remote AnkiConnect service as seen through the AnkiClient: each
query either yields its payload or fails with the (already wrapped)
protocol error the client would throw. -/
structure AnkiEnv where
  modelNames : Except McpError (List String)
  modelFieldNames : String → Except McpError (List String)
  modelTemplates : String → Except McpError (List (String × CardTemplate))
  modelStyling : String → Except McpError String

/-- Result of a cache operation: outcome, post-state, and the log of
remote calls issued during the operation. -/
structure SchemaResult (α : Type) where
  result : Except McpError α
  state : CacheState
  calls : List RemoteCall

/-- The cache-miss path of `getModelSchema` (src/mcpResource.ts lines
215-242): verify the note type exists among the current model names, then
issue the three metadata fetches together (`Promise.all`); on success
store the assembled schema under its name and stamp `lastCacheUpdate`.
All three fetches are issued as soon as the name check passes, so they
all appear in the call log even when one of them fails. -/
def fetchModelSchema (env : AnkiEnv) (st : CacheState) (now : Nat) (modelName : String) :
    SchemaResult ModelSchema :=
  match env.modelNames with
  | Except.error e => ⟨Except.error e, st, [RemoteCall.modelNames]⟩
  | Except.ok names =>
    if modelName ∈ names then
      let calls := [RemoteCall.modelNames, RemoteCall.modelFieldNames modelName,
        RemoteCall.modelTemplates modelName, RemoteCall.modelStyling modelName]
      match env.modelFieldNames modelName, env.modelTemplates modelName,
          env.modelStyling modelName with
      | Except.ok fields, Except.ok templates, Except.ok css =>
          let schema : ModelSchema := ⟨modelName, fields, templates, css⟩
          ⟨Except.ok schema,
            { st with
                modelSchemaCache := mapSet st.modelSchemaCache modelName schema
                lastCacheUpdate := now },
            calls⟩
      | Except.error e, _, _ => ⟨Except.error e, st, calls⟩
      | _, Except.error e, _ => ⟨Except.error e, st, calls⟩
      | _, _, Except.error e => ⟨Except.error e, st, calls⟩
    else
      ⟨Except.error ⟨McpErrorCode.invalidParams, "Note type not found: " ++ modelName⟩,
        st, [RemoteCall.modelNames]⟩

/-- `McpResourceHandler.getModelSchema` (src/mcpResource.ts lines
203-243): reject an empty name, serve the cached entry when one exists
and the cache-wide stamp is fresh, otherwise run the fetch path. -/
def getModelSchema (env : AnkiEnv) (st : CacheState) (now : Nat) (modelName : String) :
    SchemaResult ModelSchema :=
  if modelName = "" then
    ⟨Except.error ⟨McpErrorCode.invalidParams, "Model name is required"⟩, st, []⟩
  else
    match mapLookup st.modelSchemaCache modelName with
    | some cached =>
        if now - st.lastCacheUpdate < cacheExpiry then ⟨Except.ok cached, st, []⟩
        else fetchModelSchema env st now modelName
    | none => fetchModelSchema env st now modelName

/-- The `Promise.all(modelNames.map(name => this.getModelSchema(name)))`
of `getAllModelSchemas` (src/mcpResource.ts lines 259-261), resolving the
names in order and failing on the first rejection while keeping the state
written by the calls that completed. -/
def schemasLoop (env : AnkiEnv) (now : Nat) :
    List String → CacheState → SchemaResult (List ModelSchema)
  | [], st => ⟨Except.ok [], st, []⟩
  | name :: rest, st =>
    let r := getModelSchema env st now name
    match r.result with
    | Except.error e => ⟨Except.error e, r.state, r.calls⟩
    | Except.ok schema =>
      let rr := schemasLoop env now rest r.state
      match rr.result with
      | Except.error e => ⟨Except.error e, rr.state, r.calls ++ rr.calls⟩
      | Except.ok schemas => ⟨Except.ok (schema :: schemas), rr.state, r.calls ++ rr.calls⟩

/-- The cache-miss path of `getAllModelSchemas` (src/mcpResource.ts lines
258-267): fetch the current model names, resolve each through
`getModelSchema`, and on success cache the snapshot and stamp
`lastCacheUpdate`. -/
def fetchAllModelSchemas (env : AnkiEnv) (st : CacheState) (now : Nat) :
    SchemaResult (List ModelSchema) :=
  match env.modelNames with
  | Except.error e => ⟨Except.error e, st, [RemoteCall.modelNames]⟩
  | Except.ok names =>
    let r := schemasLoop env now names st
    match r.result with
    | Except.error e => ⟨Except.error e, r.state, RemoteCall.modelNames :: r.calls⟩
    | Except.ok schemas =>
      ⟨Except.ok schemas,
        { r.state with allModelSchemasCache := some schemas, lastCacheUpdate := now },
        RemoteCall.modelNames :: r.calls⟩

/-- `McpResourceHandler.getAllModelSchemas` (src/mcpResource.ts lines
248-268): serve the snapshot when present and fresh, else refetch. -/
def getAllModelSchemas (env : AnkiEnv) (st : CacheState) (now : Nat) :
    SchemaResult (List ModelSchema) :=
  match st.allModelSchemasCache with
  | some snap =>
      if now - st.lastCacheUpdate < cacheExpiry then ⟨Except.ok snap, st, []⟩
      else fetchAllModelSchemas env st now
  | none => fetchAllModelSchemas env st now

/-- `McpResourceHandler.clearCache` (src/mcpResource.ts lines 273-277):
drop the map, drop the snapshot, reset the stamp to the epoch. -/
def clearCache (_ : CacheState) : CacheState :=
  ⟨[], none, 0⟩

/-- A dynamic JSON value as returned by the remote service. -/
inductive JsDyn where
  | number (n : Int)
  | string (s : String)
  | boolean (b : Bool)
  | null
  | array (xs : List JsDyn)

/-- `typeof id === "number"` on a dynamic value. -/
def isNumber : JsDyn → Bool
  | JsDyn.number _ => true
  | _ => false

/-- `Array.isArray` on a dynamic value. -/
def isArray : JsDyn → Bool
  | JsDyn.array _ => true
  | _ => false

/-- The result sanitisation of `AnkiClient.findNotes` (src/utils.ts lines
346-351): keep only the numbers of an array result, and turn any
non-array result into the empty array. -/
def findNotesResult (result : JsDyn) : List JsDyn :=
  match result with
  | JsDyn.array xs => xs.filter isNumber
  | _ => []

/-- `AnkiClient.findNotes` (src/utils.ts lines 341-357): run the query
through the retry wrapper, sanitise a successful result, wrap a surfaced
error. -/
def findNotes (op : Nat → Except JsValue JsDyn) (retryTimeout : Nat) :
    Except McpError (List JsDyn) × List Nat :=
  let t := executeWithRetry op 1 retryTimeout
  match t.result with
  | Except.ok v => (Except.ok (findNotesResult v), t.delays)
  | Except.error e => (Except.error (wrapError e), t.delays)

/-- The attempt outcomes of the spec's concrete deck-names scenario: the
first two attempts fail with a connection-refused signature, any later
attempt succeeds with `["Default"]`. -/
def deckNamesScenarioOp : Nat → Except JsValue (List String) := fun i =>
  if i < 2 then Except.error (JsValue.error "Error" "connect ECONNREFUSED 127.0.0.1:8765")
  else Except.ok ["Default"]

/-- A minimal remote environment with one note type, used as test data. -/
def basicSchema : ModelSchema :=
  ⟨"Basic", ["Front", "Back"], [("Card 1", ⟨"f", "b"⟩)], ".card"⟩

/-- A healthy remote environment knowing only the `Basic` note type. -/
def envBasic : AnkiEnv where
  modelNames := Except.ok ["Basic"]
  modelFieldNames := fun _ => Except.ok ["Front", "Back"]
  modelTemplates := fun _ => Except.ok [("Card 1", ⟨"f", "b"⟩)]
  modelStyling := fun _ => Except.ok ".card"

/-- A remote environment with three note types where the field-name fetch
of `B` fails with the collection-unavailable API error. -/
def envFieldFail : AnkiEnv where
  modelNames := Except.ok ["A", "B", "C"]
  modelFieldNames := fun m =>
    if m = "B" then
      Except.error ⟨McpErrorCode.internalError,
        "Anki collection is unavailable. Please close any open dialogs in Anki."⟩
    else Except.ok ["Front", "Back"]
  modelTemplates := fun _ => Except.ok [("Card 1", ⟨"f", "b"⟩)]
  modelStyling := fun _ => Except.ok ".card"

/-- The empty cache state (the constructor's initial state). -/
def emptyCache : CacheState := ⟨[], none, 0⟩

/-- A cache state holding a stale `Basic` entry plus an old entry for a
note type `Old` that no longer exists remotely. -/
def staleCache : CacheState :=
  ⟨[("Basic", basicSchema), ("Old", ⟨"Old", ["X"], [], ""⟩)], none, 0⟩

/-! ## Lemmas about the association-list map -/

theorem mapLookup_mapSet_self (m : List (String × ModelSchema)) (k : String) (v : ModelSchema) :
    mapLookup (mapSet m k v) k = some v := by
  induction m with
  | nil => simp [mapSet, mapLookup]
  | cons p rest ih =>
    obtain ⟨k', v'⟩ := p
    by_cases h : k' = k
    · subst h; simp [mapSet, mapLookup]
    · simp [mapSet, mapLookup, h, ih]

theorem mapLookup_mapSet_ne (m : List (String × ModelSchema)) (k : String) (v : ModelSchema)
    (q : String) (h : q ≠ k) : mapLookup (mapSet m k v) q = mapLookup m q := by
  induction m with
  | nil => simp [mapSet, mapLookup, Ne.symm h]
  | cons p rest ih =>
    obtain ⟨k', v'⟩ := p
    by_cases hk : k' = k
    · subst hk
      simp [mapSet, mapLookup, Ne.symm h]
    · by_cases hq : k' = q
      · subst hq; simp [mapSet, mapLookup, hk]
      · simp [mapSet, mapLookup, hk, hq, ih]

/-! ## State-preservation lemmas for the schema cache -/

theorem fetchModelSchema_allCache (env : AnkiEnv) (st : CacheState) (now : Nat) (n : String) :
    (fetchModelSchema env st now n).state.allModelSchemasCache = st.allModelSchemasCache := by
  unfold fetchModelSchema
  split
  · rfl
  · split
    · split <;> rfl
    · rfl

theorem getModelSchema_allCache (env : AnkiEnv) (st : CacheState) (now : Nat) (n : String) :
    (getModelSchema env st now n).state.allModelSchemasCache = st.allModelSchemasCache := by
  unfold getModelSchema
  split
  · rfl
  · split
    · split
      · rfl
      · exact fetchModelSchema_allCache env st now n
    · exact fetchModelSchema_allCache env st now n

theorem fetchModelSchema_other_keys (env : AnkiEnv) (st : CacheState) (now : Nat)
    (n q : String) (h : q ≠ n) :
    mapLookup (fetchModelSchema env st now n).state.modelSchemaCache q =
      mapLookup st.modelSchemaCache q := by
  unfold fetchModelSchema
  split
  · rfl
  · split
    · split
      · exact mapLookup_mapSet_ne _ _ _ _ h
      · rfl
      · rfl
      · rfl
    · rfl

theorem getModelSchema_other_keys (env : AnkiEnv) (st : CacheState) (now : Nat)
    (n q : String) (h : q ≠ n) :
    mapLookup (getModelSchema env st now n).state.modelSchemaCache q =
      mapLookup st.modelSchemaCache q := by
  unfold getModelSchema
  split
  · rfl
  · split
    · split
      · rfl
      · exact fetchModelSchema_other_keys env st now n q h
    · exact fetchModelSchema_other_keys env st now n q h

theorem schemasLoop_allCache (env : AnkiEnv) (now : Nat) :
    ∀ (names : List String) (st : CacheState),
      (schemasLoop env now names st).state.allModelSchemasCache = st.allModelSchemasCache := by
  intro names
  induction names with
  | nil => intro st; rfl
  | cons name rest ih =>
    intro st
    simp only [schemasLoop]
    split
    · exact getModelSchema_allCache env st now name
    · split
      · rw [ih, getModelSchema_allCache]
      · rw [ih, getModelSchema_allCache]

theorem schemasLoop_other_keys (env : AnkiEnv) (now : Nat) :
    ∀ (names : List String) (st : CacheState) (q : String), q ∉ names →
      mapLookup (schemasLoop env now names st).state.modelSchemaCache q =
        mapLookup st.modelSchemaCache q := by
  intro names
  induction names with
  | nil => intro st q _; rfl
  | cons name rest ih =>
    intro st q hq
    have hqname : q ≠ name := fun h => hq (h ▸ List.mem_cons_self name rest)
    have hqrest : q ∉ rest := fun h => hq (List.mem_cons_of_mem name h)
    simp only [schemasLoop]
    split
    · exact getModelSchema_other_keys env st now name q hqname
    · split
      · rw [ih _ q hqrest, getModelSchema_other_keys env st now name q hqname]
      · rw [ih _ q hqrest, getModelSchema_other_keys env st now name q hqname]

/-! ## Lemmas about the retry loop -/

theorem retryLoop_attempts_le {α : Type} (op : Nat → Except JsValue α) (rt : Nat) :
    ∀ (r a : Nat) (le : Option NormalizedError), (retryLoop op rt a r le).attemptsMade ≤ r := by
  intro r
  induction r with
  | zero => intro a le; simp [retryLoop]
  | succ n ih =>
    intro a le
    simp only [retryLoop]
    split
    · simp
    · simpa using Nat.succ_le_succ (ih (a + 1) _)

theorem retryLoop_attempts_pos {α : Type} (op : Nat → Except JsValue α) (rt : Nat)
    (r a : Nat) (le : Option NormalizedError) :
    1 ≤ (retryLoop op rt a (r + 1) le).attemptsMade := by
  simp only [retryLoop]
  split
  · simp
  · simp

theorem retryLoop_delays {α : Type} (op : Nat → Except JsValue α) (rt : Nat) :
    ∀ (r a : Nat) (le : Option NormalizedError),
      (retryLoop op rt a r le).delays =
        (List.range ((retryLoop op rt a r le).attemptsMade - 1)).map
          (fun i => backoffDelay (a + i) rt) := by
  intro r
  induction r with
  | zero => intro a le; simp [retryLoop]
  | succ n ih =>
    intro a le
    simp only [retryLoop]
    split
    · simp
    · rename_i e _
      by_cases hn : n = 0
      · subst hn
        simp [retryLoop]
      · have hpos : 1 ≤ (retryLoop op rt (a + 1) n (some (normalizeError e))).attemptsMade := by
          obtain ⟨k, hk⟩ := Nat.exists_eq_succ_of_ne_zero hn
          subst hk
          exact retryLoop_attempts_pos op rt k (a + 1) _
        obtain ⟨k, hk⟩ := Nat.exists_eq_add_of_le hpos
        simp only [hn, if_false, List.singleton_append, hk, ih (a + 1) (some (normalizeError e))]
        simp only [Nat.add_sub_cancel_left, Nat.add_succ_sub_one]
        rw [show 1 + k = k + 1 by omega, List.range_succ_eq_map, List.map_cons, List.map_map]
        refine congrArg₂ List.cons (by simp) (List.map_congr_left fun i _ => ?_)
        simp only [Function.comp]
        rw [show a + (i + 1) = a + 1 + i by omega]

theorem retryLoop_all_fail {α : Type} (op : Nat → Except JsValue α) (rt : Nat) :
    ∀ (r a : Nat) (le : Option NormalizedError) (e : JsValue),
      (∀ i, i ≤ r → ∃ e', op (a + i) = Except.error e') →
      op (a + r) = Except.error e →
      (retryLoop op rt a (r + 1) le).result = Except.error (normalizeError e) := by
  intro r
  induction r with
  | zero =>
    intro a le e _ hlast
    simp only [Nat.add_zero] at hlast
    simp [retryLoop, hlast]
  | succ n ih =>
    intro a le e hall hlast
    obtain ⟨e0, he0⟩ := hall 0 (Nat.zero_le _)
    simp only [Nat.add_zero] at he0
    simp only [retryLoop, he0]
    exact ih (a + 1) (some (normalizeError e0)) e
      (fun i hi => by
        have := hall (i + 1) (Nat.succ_le_succ hi)
        simpa [Nat.add_assoc, Nat.add_comm 1 i] using this)
      (by simpa [Nat.add_assoc, Nat.add_comm 1 n] using hlast)

/-! ## Claim theorems about the retry wrapper -/

/-- C1: through `executeWithRetry`, a first-attempt success yields exactly
one attempt and that result; the default configuration (`maxRetries = 1`)
issues at most two attempts; if every attempt fails, the last normalized
error is raised; and a retry budget permitting zero attempts raises the
generic connection error. -/
theorem executeWithRetry_attempt_policy {α : Type}
    (op : Nat → Except JsValue α) (rt : Nat) :
    (∀ (m : Int) (v : α), 0 ≤ m → op 0 = Except.ok v →
        executeWithRetry op m rt = ⟨Except.ok v, [], 1⟩) ∧
    (executeWithRetry op 1 rt).attemptsMade ≤ 2 ∧
    (∀ (m : Nat) (e : JsValue),
        (∀ i, i ≤ m → ∃ e', op i = Except.error e') →
        op m = Except.error e →
        (executeWithRetry op (m : Int) rt).result = Except.error (normalizeError e)) ∧
    (∀ m : Int, m < 0 →
        executeWithRetry op m rt =
          ⟨Except.error (NormalizedError.connectionError "Unknown error occurred"), [], 0⟩) := by
  refine ⟨?_, ?_, ?_, ?_⟩
  · intro m v hm hop
    have h1 : (m + 1).toNat = m.toNat + 1 := by omega
    simp [executeWithRetry, h1, retryLoop, hop]
  · have h2 : ((1 : Int) + 1).toNat = 2 := by decide
    simpa [executeWithRetry, h2] using retryLoop_attempts_le op rt 2 0 none
  · intro m e hall hlast
    have h1 : ((m : Int) + 1).toNat = m + 1 := by omega
    simp only [executeWithRetry, h1]
    exact retryLoop_all_fail op rt m 0 none e (fun i hi => by simpa using hall i hi)
      (by simpa using hlast)
  · intro m hm
    have h0 : (m + 1).toNat = 0 := by omega
    simp [executeWithRetry, h0, retryLoop]

/-- C1 witness: a first-attempt success under the default budget makes
exactly one attempt, no delays, and returns the result. -/
theorem executeWithRetry_attempt_policy_witness :
    executeWithRetry (fun _ => Except.ok (42 : Nat)) 1 10000 = ⟨Except.ok 42, [], 1⟩ :=
  (executeWithRetry_attempt_policy (fun _ => Except.ok (42 : Nat)) 10000).1 1 42
    (by decide) rfl

/-- C2: the delays of any `executeWithRetry` run are exactly one delay per
non-final failed attempt, the `i`-th equal to `min(1000 * 2^i, retryTimeout)`
milliseconds; in particular no delay follows the final attempt. -/
theorem executeWithRetry_backoff_schedule {α : Type}
    (op : Nat → Except JsValue α) (m : Int) (rt : Nat) :
    (executeWithRetry op m rt).delays =
      (List.range ((executeWithRetry op m rt).attemptsMade - 1)).map
        (fun i => min (1000 * 2 ^ i) rt) := by
  have h := retryLoop_delays op rt (m + 1).toNat 0 none
  simpa [executeWithRetry, backoffDelay] using h

/-! ## Claim theorems about error normalization -/

/-- C3: `normalizeError` checks its rules in priority order — a
connection-refused signature yields the `ConnectionError` telling the user
to start Anki and enable the plugin; otherwise a timeout signature yields
the `TimeoutError`; otherwise a collection-unavailable signature yields
the dialog-closing `ApiError`; any other `Error` passes through unchanged;
and a non-`Error` value is wrapped generically around its string form. -/
theorem normalizeError_priority (name msg : String) :
    (strContains msg "ECONNREFUSED" = true →
      normalizeError (JsValue.error name msg) =
        NormalizedError.connectionError
          "Anki is not running. Please start Anki and ensure AnkiConnect plugin is enabled.") ∧
    (strContains msg "ECONNREFUSED" = false →
      (strContains msg "timeout" || strContains msg "ETIMEDOUT") = true →
      normalizeError (JsValue.error name msg) =
        NormalizedError.timeoutError
          "Connection to Anki timed out. Please check if Anki is responsive.") ∧
    (strContains msg "ECONNREFUSED" = false →
      (strContains msg "timeout" || strContains msg "ETIMEDOUT") = false →
      strContains msg "collection unavailable" = true →
      normalizeError (JsValue.error name msg) =
        NormalizedError.apiError
          "Anki collection is unavailable. Please close any open dialogs in Anki.") ∧
    (strContains msg "ECONNREFUSED" = false →
      (strContains msg "timeout" || strContains msg "ETIMEDOUT") = false →
      strContains msg "collection unavailable" = false →
      normalizeError (JsValue.error name msg) = NormalizedError.plainError name msg) ∧
    (∀ s, normalizeError (JsValue.nonError s) = NormalizedError.plainError "Error" s) := by
  refine ⟨?_, ?_, ?_, ?_, ?_⟩
  · intro h1; simp [normalizeError, h1]
  · intro h1 h2; simp [normalizeError, h1, h2]
  · intro h1 h2 h3; simp [normalizeError, h1, h2, h3]
  · intro h1 h2 h3; simp [normalizeError, h1, h2, h3]
  · intro s; rfl

/-- C3 witness: a connection-refused message is classified as the
`ConnectionError` with the remediation message. -/
theorem normalizeError_priority_witness :
    normalizeError (JsValue.error "Error" "connect ECONNREFUSED 127.0.0.1:8765") =
      NormalizedError.connectionError
        "Anki is not running. Please start Anki and ensure AnkiConnect plugin is enabled." :=
  (normalizeError_priority "Error" "connect ECONNREFUSED 127.0.0.1:8765").1 (by decide)

/-- C5 counterexample: in the spec's concrete scenario (retry-timeout
ceiling 10000 ms, first two attempts connection-refused, later attempts
succeeding with `["Default"]`), the actual `getDeckNames` call — whose
retry budget is the default one retry — does NOT return `["Default"]`
with two delays of 1000 ms and 2000 ms. -/
theorem deckNames_scenario_counterexample :
    ¬ ((getDeckNames deckNamesScenarioOp 10000).1 = Except.ok ["Default"] ∧
       (getDeckNames deckNamesScenarioOp 10000).2 = [1000, 2000]) := by
  intro h
  exact absurd h.2 (by decide)

/-- C5 (amended): with a retry budget of two retries (three total
attempts) the scenario returns `["Default"]` after exactly two delays of
1000 ms and 2000 ms; under `getDeckNames`'s actual default budget of one
retry the third attempt is never reached, and the call instead fails with
the wrapped connection error after a single 1000 ms delay. -/
theorem deckNames_scenario_amended :
    executeWithRetry deckNamesScenarioOp 2 10000 =
      ⟨Except.ok ["Default"], [1000, 2000], 3⟩ ∧
    getDeckNames deckNamesScenarioOp 10000 =
      (Except.error ⟨McpErrorCode.internalError,
        "Anki is not running. Please start Anki and ensure AnkiConnect plugin is enabled."⟩,
        [1000]) :=
  ⟨rfl, rfl⟩

/-! ## Claim theorem about findNotes sanitisation -/

/-- C10: `findNotes` turns an array success result into that array with
every non-number element removed (so only numbers remain), turns any
non-array success result into the empty array, and in neither case does a
malformed success result make the call fail. -/
theorem findNotes_sanitises_result (v : JsDyn) :
    (∀ xs, v = JsDyn.array xs →
        findNotesResult v = xs.filter isNumber ∧
        ∀ x ∈ findNotesResult v, isNumber x = true) ∧
    (isArray v = false → findNotesResult v = []) ∧
    (∀ (op : Nat → Except JsValue JsDyn) (rt : Nat),
        (executeWithRetry op 1 rt).result = Except.ok v →
        (findNotes op rt).1 = Except.ok (findNotesResult v)) := by
  refine ⟨?_, ?_, ?_⟩
  · rintro xs rfl
    refine ⟨rfl, ?_⟩
    intro x hx
    exact (List.mem_filter.mp hx).2
  · intro h
    cases v <;> first
      | rfl
      | simp [isArray] at h
  · intro op rt h
    simp [findNotes, h]

/-- C10 witness: an array mixing numbers and a string is filtered down to
its numbers. -/
theorem findNotes_sanitises_result_witness :
    findNotesResult (JsDyn.array [JsDyn.number 1, JsDyn.string "a", JsDyn.number 2]) =
      [JsDyn.number 1, JsDyn.number 2] := by
  have h := (findNotes_sanitises_result
      (JsDyn.array [JsDyn.number 1, JsDyn.string "a", JsDyn.number 2])).1
      [JsDyn.number 1, JsDyn.string "a", JsDyn.number 2] rfl
  rw [h.1]
  rfl

/-! ## Claim theorems about the schema cache -/

/-- C4: once `now - lastCacheUpdate` reaches the (five-minute) expiry,
`getModelSchema` and `getAllModelSchemas` both take their remote fetch
paths rather than serving any cached entry, whatever the cache holds —
staleness is decided by the single cache-wide stamp. -/
theorem cache_wide_staleness (env : AnkiEnv) (st : CacheState) (now : Nat) (name : String)
    (hname : name ≠ "") (hstale : cacheExpiry ≤ now - st.lastCacheUpdate) :
    getModelSchema env st now name = fetchModelSchema env st now name ∧
    getAllModelSchemas env st now = fetchAllModelSchemas env st now := by
  constructor
  · unfold getModelSchema
    rw [if_neg hname]
    split
    · rw [if_neg (by omega)]
    · rfl
  · unfold getAllModelSchemas
    split
    · rw [if_neg (by omega)]
    · rfl

/-- C4 witness: with a `Basic` entry written at time 0 and the expiry just
reached, the per-name read takes the fetch path. -/
theorem cache_wide_staleness_witness :
    getModelSchema envBasic staleCache 300000 "Basic" =
      fetchModelSchema envBasic staleCache 300000 "Basic" :=
  (cache_wide_staleness envBasic staleCache 300000 "Basic" (by decide) (by decide)).1

/-- C6: when the requested note type is not freshly cached and is absent
from the remote service's current note-type names, `getModelSchema` fails
with the invalid-parameter error naming the missing type, issues only the
model-names call (none of the three metadata fetches), and leaves the
cache state unchanged. -/
theorem getModelSchema_missing_type (env : AnkiEnv) (st : CacheState) (now : Nat)
    (name : String) (names : List String)
    (hname : name ≠ "")
    (hmiss : mapLookup st.modelSchemaCache name = none ∨
      cacheExpiry ≤ now - st.lastCacheUpdate)
    (hnames : env.modelNames = Except.ok names)
    (hnot : name ∉ names) :
    (getModelSchema env st now name).result =
      Except.error ⟨McpErrorCode.invalidParams, "Note type not found: " ++ name⟩ ∧
    (getModelSchema env st now name).calls = [RemoteCall.modelNames] ∧
    (getModelSchema env st now name).state = st := by
  have hfetch : fetchModelSchema env st now name =
      ⟨Except.error ⟨McpErrorCode.invalidParams, "Note type not found: " ++ name⟩, st,
        [RemoteCall.modelNames]⟩ := by
    unfold fetchModelSchema
    rw [hnames]
    simp only [if_neg hnot]
  have hwhole : getModelSchema env st now name =
      ⟨Except.error ⟨McpErrorCode.invalidParams, "Note type not found: " ++ name⟩, st,
        [RemoteCall.modelNames]⟩ := by
    unfold getModelSchema
    rw [if_neg hname]
    split
    · rename_i cached hlook
      rcases hmiss with hmiss | hmiss
      · rw [hlook] at hmiss; cases hmiss
      · rw [if_neg (by omega)]
        exact hfetch
    · exact hfetch
  rw [hwhole]
  exact ⟨rfl, rfl, rfl⟩

/-- C6 witness: asking the single-note-type environment for `Missing`
fails with the naming error. -/
theorem getModelSchema_missing_type_witness :
    (getModelSchema envBasic emptyCache 0 "Missing").result =
      Except.error ⟨McpErrorCode.invalidParams, "Note type not found: " ++ "Missing"⟩ :=
  (getModelSchema_missing_type envBasic emptyCache 0 "Missing" ["Basic"]
    (by decide) (Or.inl rfl) rfl (by decide)).1

/-- C8: `clearCache` empties the per-name map, drops the snapshot, resets
the stamp to the epoch, and thereby sends the next `getModelSchema` (of a
nonempty name) and the next `getAllModelSchemas` down their remote fetch
paths, whatever was cached (fresh or not) before the clear. -/
theorem clearCache_forces_refetch (env : AnkiEnv) (st : CacheState) (now : Nat)
    (name : String) (hname : name ≠ "") :
    (clearCache st).modelSchemaCache = [] ∧
    (clearCache st).allModelSchemasCache = none ∧
    (clearCache st).lastCacheUpdate = 0 ∧
    getModelSchema env (clearCache st) now name =
      fetchModelSchema env (clearCache st) now name ∧
    getAllModelSchemas env (clearCache st) now =
      fetchAllModelSchemas env (clearCache st) now := by
  refine ⟨rfl, rfl, rfl, ?_, rfl⟩
  unfold getModelSchema
  rw [if_neg hname]
  rfl

/-- C8 witness: clearing a cache that holds a still-fresh `Basic` entry
makes the immediately following read take the fetch path. -/
theorem clearCache_forces_refetch_witness :
    getModelSchema envBasic (clearCache ⟨[("Basic", basicSchema)], none, 1000⟩) 1000 "Basic" =
      fetchModelSchema envBasic (clearCache ⟨[("Basic", basicSchema)], none, 1000⟩) 1000 "Basic" :=
  (clearCache_forces_refetch envBasic ⟨[("Basic", basicSchema)], none, 1000⟩ 1000 "Basic"
    (by decide)).2.2.2.1

/-! ## Unfolding lemmas for the all-schemas loop -/

theorem schemasLoop_cons_err (env : AnkiEnv) (now : Nat) (name : String) (rest : List String)
    (st : CacheState) (e : McpError)
    (h : (getModelSchema env st now name).result = Except.error e) :
    schemasLoop env now (name :: rest) st =
      ⟨Except.error e, (getModelSchema env st now name).state,
        (getModelSchema env st now name).calls⟩ := by
  simp only [schemasLoop, h]

theorem schemasLoop_cons_ok_state (env : AnkiEnv) (now : Nat) (name : String)
    (rest : List String) (st : CacheState) (schema : ModelSchema)
    (h : (getModelSchema env st now name).result = Except.ok schema) :
    (schemasLoop env now (name :: rest) st).state =
      (schemasLoop env now rest (getModelSchema env st now name).state).state := by
  simp only [schemasLoop, h]
  split <;> rfl

theorem schemasLoop_cons_ok_err (env : AnkiEnv) (now : Nat) (name : String)
    (rest : List String) (st : CacheState) (schema : ModelSchema) (e : McpError)
    (h1 : (getModelSchema env st now name).result = Except.ok schema)
    (h2 : (schemasLoop env now rest (getModelSchema env st now name).state).result =
      Except.error e) :
    (schemasLoop env now (name :: rest) st).result = Except.error e := by
  simp only [schemasLoop, h1, h2]

theorem schemasLoop_error_prop (env : AnkiEnv) (now : Nat) :
    ∀ (pre : List String) (st : CacheState) (s1 : List ModelSchema) (name : String)
      (post : List String) (e : McpError),
      (schemasLoop env now pre st).result = Except.ok s1 →
      (getModelSchema env (schemasLoop env now pre st).state now name).result =
        Except.error e →
      (schemasLoop env now (pre ++ name :: post) st).result = Except.error e := by
  intro pre
  induction pre with
  | nil =>
    intro st s1 name post e _ herr
    have hst : (schemasLoop env now [] st).state = st := rfl
    rw [hst] at herr
    rw [List.nil_append, schemasLoop_cons_err env now name post st e herr]
  | cons p ps ih =>
    intro st s1 name post e hok herr
    cases hr : (getModelSchema env st now p).result with
    | error e' =>
      rw [schemasLoop_cons_err env now p ps st e' hr] at hok
      cases hok
    | ok schema =>
      have hstate := schemasLoop_cons_ok_state env now p ps st schema hr
      rw [hstate] at herr
      cases hrr : (schemasLoop env now ps (getModelSchema env st now p).state).result with
      | error e'' =>
        rw [schemasLoop_cons_ok_err env now p ps st schema e'' hr hrr] at hok
        cases hok
      | ok s2 =>
        rw [List.cons_append]
        exact schemasLoop_cons_ok_err env now p (ps ++ name :: post) st schema e hr
          (ih (getModelSchema env st now p).state s2 name post e hrr herr)

theorem getAllModelSchemas_miss (env : AnkiEnv) (st : CacheState) (now : Nat)
    (hsnap : st.allModelSchemasCache = none ∨ cacheExpiry ≤ now - st.lastCacheUpdate) :
    getAllModelSchemas env st now = fetchAllModelSchemas env st now := by
  unfold getAllModelSchemas
  rcases hsnap with h | h
  · rw [h]
  · split
    · rw [if_neg (by omega)]
    · rfl

/-- C7: if the "all schemas" snapshot cannot be served and, while
resolving the current note types, one `getModelSchema` fails (after the
preceding ones succeeded), the whole `getAllModelSchemas` call fails with
exactly that error — no partial schema list — and the "all schemas"
snapshot is left unwritten. -/
theorem getAllModelSchemas_failure_atomic (env : AnkiEnv) (st : CacheState) (now : Nat)
    (names pre : List String) (name : String) (post : List String)
    (s1 : List ModelSchema) (e : McpError)
    (hsnap : st.allModelSchemasCache = none ∨ cacheExpiry ≤ now - st.lastCacheUpdate)
    (hnames : env.modelNames = Except.ok names)
    (hsplit : names = pre ++ name :: post)
    (hpre : (schemasLoop env now pre st).result = Except.ok s1)
    (hfail : (getModelSchema env (schemasLoop env now pre st).state now name).result =
      Except.error e) :
    (getAllModelSchemas env st now).result = Except.error e ∧
    (getAllModelSchemas env st now).state.allModelSchemasCache =
      st.allModelSchemasCache := by
  have hloop : (schemasLoop env now names st).result = Except.error e := by
    rw [hsplit]
    exact schemasLoop_error_prop env now pre st s1 name post e hpre hfail
  have hfetchEq : fetchAllModelSchemas env st now =
      ⟨Except.error e, (schemasLoop env now names st).state,
        RemoteCall.modelNames :: (schemasLoop env now names st).calls⟩ := by
    unfold fetchAllModelSchemas
    simp only [hnames, hloop]
  rw [getAllModelSchemas_miss env st now hsnap, hfetchEq]
  exact ⟨rfl, schemasLoop_allCache env now names st⟩

/-- C7 witness: over three note types with the second one's field-name
fetch failing with the collection-unavailable API error, the whole call
fails with that error. -/
theorem getAllModelSchemas_failure_atomic_witness :
    (getAllModelSchemas envFieldFail emptyCache 0).result =
      Except.error ⟨McpErrorCode.internalError,
        "Anki collection is unavailable. Please close any open dialogs in Anki."⟩ :=
  (getAllModelSchemas_failure_atomic envFieldFail emptyCache 0 ["A", "B", "C"] ["A"] "B" ["C"]
    [⟨"A", ["Front", "Back"], [("Card 1", ⟨"f", "b"⟩)], ".card"⟩]
    ⟨McpErrorCode.internalError,
      "Anki collection is unavailable. Please close any open dialogs in Anki."⟩
    (Or.inl rfl) rfl rfl rfl rfl).1

/-- C9: a successful refill by `getAllModelSchemas` stamps the shared
`lastCacheUpdate` to `now`; entries whose names are not among the current
note types are kept untouched; and any entry present afterwards —
including such untouched older entries — is served by a subsequent
`getModelSchema` within the freshness window from the cache alone, with
no remote calls and no state change. -/
theorem getAllModelSchemas_refreshes_shared_stamp (env : AnkiEnv) (st : CacheState)
    (now : Nat) (names : List String) (schemas : List ModelSchema)
    (hsnap : st.allModelSchemasCache = none ∨ cacheExpiry ≤ now - st.lastCacheUpdate)
    (hnames : env.modelNames = Except.ok names)
    (hok : (getAllModelSchemas env st now).result = Except.ok schemas) :
    (getAllModelSchemas env st now).state.lastCacheUpdate = now ∧
    (∀ q, q ∉ names →
        mapLookup (getAllModelSchemas env st now).state.modelSchemaCache q =
          mapLookup st.modelSchemaCache q) ∧
    (∀ (q : String) (sch : ModelSchema), q ≠ "" →
        mapLookup (getAllModelSchemas env st now).state.modelSchemaCache q = some sch →
        ∀ now2, now2 - now < cacheExpiry →
          getModelSchema env (getAllModelSchemas env st now).state now2 q =
            ⟨Except.ok sch, (getAllModelSchemas env st now).state, []⟩) := by
  rw [getAllModelSchemas_miss env st now hsnap] at hok ⊢
  cases hl : (schemasLoop env now names st).result with
  | error e =>
    exfalso
    have hres : (fetchAllModelSchemas env st now).result = Except.error e := by
      unfold fetchAllModelSchemas
      simp only [hnames, hl]
    rw [hres] at hok
    cases hok
  | ok s =>
    have hfeq : fetchAllModelSchemas env st now =
        ⟨Except.ok s,
          { (schemasLoop env now names st).state with
              allModelSchemasCache := some s, lastCacheUpdate := now },
          RemoteCall.modelNames :: (schemasLoop env now names st).calls⟩ := by
      unfold fetchAllModelSchemas
      simp only [hnames, hl]
    rw [hfeq]
    refine ⟨rfl, ?_, ?_⟩
    · intro q hq
      exact schemasLoop_other_keys env now names st q hq
    · intro q sch hq hlook now2 hfresh
      unfold getModelSchema
      rw [if_neg hq]
      simp only [hlook]
      split
      · rfl
      · rename_i hcon
        exact absurd hfresh hcon

/-- C9 witness: after a refill at time 300000 over the remote's single
note type, the stale `Old` entry — for a note type the remote no longer
has, and itself not refetched — is served from the cache with no remote
calls. -/
theorem getAllModelSchemas_refreshes_shared_stamp_witness :
    getModelSchema envBasic (getAllModelSchemas envBasic staleCache 300000).state 300000 "Old" =
      ⟨Except.ok ⟨"Old", ["X"], [], ""⟩,
        (getAllModelSchemas envBasic staleCache 300000).state, []⟩ :=
  (getAllModelSchemas_refreshes_shared_stamp envBasic staleCache 300000 ["Basic"]
    [basicSchema] (Or.inl rfl) rfl rfl).2.2 "Old" ⟨"Old", ["X"], [], ""⟩
    (by decide) rfl 300000 (by decide)

end AnkiMcp
